import Mathlib

/-!
Verification of the NotesApp auto-save / AI-assist pipeline.

This file gives a shallow embedding, in Lean 4, of the JavaScript/TypeScript
core of the application: the BlockNote text extractor
(`lib/utils/blocknote-to-text.ts`), the tag-parsing fallback chain and the
AI routes (`lib/hono/routes/ai.routes.ts`), the pages routes
(`lib/hono/routes/pages.routes.ts`), the improve-prompt construction
(`lib/ai/prompts.ts`), and the debounced save controller
(`components/editor/Editor.tsx`).  Each JS function is translated into a
total Lean function; handlers are pure functions from (request body, store
state, provider outcome) to (response, new store state, provider call
count).  Theorems at the end of the file settle the specification claims.

Modelling conventions for JavaScript semantics:
* Strings are Lean `String` (lists of Unicode scalar values).  JS string
  `length` counts UTF-16 code units; for code points below 0x10000 (all
  inputs exercised here) the two coincide.
* `jsTrim` models `String.prototype.trim` over the ECMAScript whitespace
  set; `jsToLowerChar` models `toLowerCase` on the ASCII range (non-ASCII
  letters are left unchanged, which is the only divergence from JS and is
  irrelevant to the claims).
* A JSON body field read with `typeof body.x === "string" ? body.x : d`
  is modelled as `Option String` where `none` stands for an absent or
  non-string field (the handler treats those two alike).
-/

namespace NotesApp

/-! ## JavaScript string primitives -/

/-- The ECMAScript `WhiteSpace` and `LineTerminator` character set used by
`String.prototype.trim` and by the regex class `\s`. -/
def jsIsWS (c : Char) : Bool :=
  c.toNat = 9 || c.toNat = 10 || c.toNat = 11 || c.toNat = 12 || c.toNat = 13 ||
  c.toNat = 32 || c.toNat = 0xA0 || c.toNat = 0x1680 ||
  (0x2000 ≤ c.toNat && c.toNat ≤ 0x200A) ||
  c.toNat = 0x2028 || c.toNat = 0x2029 || c.toNat = 0x202F || c.toNat = 0x205F ||
  c.toNat = 0x3000 || c.toNat = 0xFEFF

/-- `String.prototype.trim` on the character list: drop leading and trailing
whitespace. -/
def jsTrimL (l : List Char) : List Char :=
  List.rdropWhile jsIsWS (l.dropWhile jsIsWS)

/-- `String.prototype.trim`. -/
def jsTrim (s : String) : String :=
  ⟨jsTrimL s.data⟩

/-- `String.prototype.toLowerCase` on one character, ASCII range. -/
def jsToLowerChar (c : Char) : Char :=
  if 65 ≤ c.toNat ∧ c.toNat ≤ 90 then Char.ofNat (c.toNat + 32) else c

/-- `String.prototype.toLowerCase` (ASCII model). -/
def jsToLower (s : String) : String :=
  ⟨s.data.map jsToLowerChar⟩

/-- The number of non-whitespace characters of a string.  This definition
formalises the spec's phrase "non-whitespace characters"; it is used to
state claims, not taken from the source. -/
def countNonWS (s : String) : Nat :=
  (s.data.filter (fun c => !jsIsWS c)).length

/-- `Array.prototype.join("\n")`. -/
def joinLines : List String → String
  | [] => ""
  | [a] => a
  | a :: rest => a ++ "\n" ++ joinLines rest

/-! ## Text Extractor (`lib/utils/blocknote-to-text.ts`) -/

/-- One BlockNote inline content item:
`{ type: string, text?: string, content?: InlineContent[] }`. -/
inductive InlineContent where
  | mk (ty : String) (text : Option String) (content : Option (List InlineContent))

/-- One BlockNote block:
`{ type?: string, content?: InlineContent[], children?: Block[] }`. -/
inductive Block where
  | mk (ty : Option String) (content : Option (List InlineContent)) (children : Option (List Block))

mutual

/-- `extractInlineText`: returns `inline.text` when that is a non-empty
string (JS truthiness), else the concatenation over `inline.content` when
present, else `""`. -/
def extractInlineText : InlineContent → String
  | .mk _ t? c? =>
    match t? with
    | some t => if t = "" then inlineJoinOpt c? else t
    | none => inlineJoinOpt c?

/-- `inline.content ? inline.content.map(extractInlineText).join("") : ""`. -/
def inlineJoinOpt : Option (List InlineContent) → String
  | none => ""
  | some items => inlineJoin items

/-- `items.map(extractInlineText).join("")`. -/
def inlineJoin : List InlineContent → String
  | [] => ""
  | i :: is => extractInlineText i ++ inlineJoin is

end

/-- `if (x.trim()) lines.push(x)`: the singleton line contributed by a
candidate string, empty when the candidate is all whitespace. -/
def lineOf (s : String) : List String :=
  if jsTrim s = "" then [] else [s]

/-- The line contributed by a block's own inline content
(`block.content && Array.isArray(block.content)` guard, then the trim
check before pushing). -/
def contentLines : Option (List InlineContent) → List String
  | some items => lineOf (inlineJoin items)
  | none => []

mutual

/-- The `lines` array built by one iteration of the `for` loop of
`extractTextFromBlocks`: the block's own line (if its inline text has
non-whitespace content) followed by the joined text of its children (if
that has non-whitespace content). -/
def blockLines : Block → List String
  | .mk _ c? ch? =>
    contentLines c? ++
    (match ch? with
     | some bs => lineOf (joinLines (blocksLines bs))
     | none => [])

/-- The `lines` array built by the whole `for` loop. -/
def blocksLines : List Block → List String
  | [] => []
  | b :: bs => blockLines b ++ blocksLines bs

end

/-- `extractTextFromBlocks`: `lines.join("\n")` (the early return for an
empty input agrees with joining the empty line list). -/
def extractTextFromBlocks (bs : List Block) : String :=
  joinLines (blocksLines bs)

mutual

/-- Modelled from the spec claim C3: the fully flattened sequence of
lines — one line per block whose inline content contains non-whitespace
text, with each block's children's lines appended after the parent's own
line, recursively. -/
def specBlockLines : Block → List String
  | .mk _ c? ch? =>
    contentLines c? ++
    (match ch? with
     | some bs => specBlocksLines bs
     | none => [])

/-- Modelled from the spec claim C3: flattened lines of a block sequence. -/
def specBlocksLines : List Block → List String
  | [] => []
  | b :: bs => specBlockLines b ++ specBlocksLines bs

end

mutual

/-- Whether a block (or, recursively, one of its descendants) carries
non-whitespace inline text. -/
def blockHasText : Block → Bool
  | .mk _ c? ch? =>
    (match c? with
     | some items => jsTrim (inlineJoin items) != ""
     | none => false) ||
    (match ch? with
     | some bs => blocksHaveText bs
     | none => false)

/-- Whether any block of the sequence carries non-whitespace text. -/
def blocksHaveText : List Block → Bool
  | [] => false
  | b :: bs => blockHasText b || blocksHaveText bs

end

/-! ## Tag parsing (`aiRoutes.post("/tags")`, strategies 1 and 2) -/

/-- The double-quote character. -/
def dquote : Char := Char.ofNat 34

/-- The single-quote character. -/
def squote : Char := Char.ofNat 39

/-- The backtick character. -/
def backtick : Char := Char.ofNat 96

/-- JSON insignificant whitespace (as accepted by `JSON.parse`). -/
def jsonWsChar (c : Char) : Bool :=
  c = ' ' || c = '\t' || c = '\n' || c = '\r'

/-- Skip JSON whitespace. -/
def skipJsonWs (l : List Char) : List Char :=
  l.dropWhile jsonWsChar

/-- A parsed JSON value.  Only the distinction "string element with its
contents" versus "any other kind of value" is observable downstream (the
route filters parsed array elements with `typeof t === "string"`), so
numbers and objects carry no payload. -/
inductive Json where
  | null
  | bool (b : Bool)
  | num
  | str (s : String)
  | arr (elems : List Json)
  | obj

/-- Hexadecimal digit test for `\u` escapes. -/
def isHexDigit (c : Char) : Bool :=
  c.isDigit || (97 ≤ c.toNat && c.toNat ≤ 102) || (65 ≤ c.toNat && c.toNat ≤ 70)

/-- Hexadecimal digit value. -/
def hexVal (c : Char) : Nat :=
  if c.isDigit then c.toNat - 48
  else if 97 ≤ c.toNat then c.toNat - 87
  else c.toNat - 55

/-- Parse the body of a JSON string literal (after the opening quote),
returning the decoded characters and the remainder after the closing
quote.  `\u` escapes are decoded with `Char.ofNat`; surrogate halves are
not recombined (Lean strings hold scalar values, JS strings UTF-16 units —
immaterial to the claims). -/
def parseStringBody : List Char → Option (List Char × List Char)
  | [] => none
  | c :: rest =>
    if c = dquote then some ([], rest)
    else if c = '\\' then
      match rest with
      | [] => none
      | e :: rest2 =>
        let esc? : Option Char :=
          if e = dquote then some dquote
          else if e = '\\' then some '\\'
          else if e = '/' then some '/'
          else if e = 'b' then some (Char.ofNat 8)
          else if e = 'f' then some (Char.ofNat 12)
          else if e = 'n' then some '\n'
          else if e = 'r' then some '\r'
          else if e = 't' then some '\t'
          else none
        match esc? with
        | some ch =>
          match parseStringBody rest2 with
          | some (cs, r) => some (ch :: cs, r)
          | none => none
        | none =>
          if e = 'u' then
            match rest2 with
            | h1 :: h2 :: h3 :: h4 :: rest3 =>
              if isHexDigit h1 && isHexDigit h2 && isHexDigit h3 && isHexDigit h4 then
                match parseStringBody rest3 with
                | some (cs, r) =>
                  some (Char.ofNat (hexVal h1 * 4096 + hexVal h2 * 256 + hexVal h3 * 16 + hexVal h4) :: cs, r)
                | none => none
              else none
            | _ => none
          else none
    else if c.toNat < 32 then none
    else
      match parseStringBody rest with
      | some (cs, r) => some (c :: cs, r)
      | none => none

/-- Consume a JSON number (`-? int frac? exp?`), returning the remainder,
or `none` when the input does not start with a valid number. -/
def parseNumber (l : List Char) : Option (List Char) :=
  let l1 := match l with
    | c :: r => if c = '-' then r else l
    | [] => l
  let afterInt? : Option (List Char) := match l1 with
    | c :: r =>
      if c = '0' then some r
      else if c.isDigit then some (r.dropWhile Char.isDigit)
      else none
    | [] => none
  match afterInt? with
  | none => none
  | some l2 =>
    let afterFrac? : Option (List Char) := match l2 with
      | c :: r =>
        if c = '.' then
          match r with
          | d :: r2 => if d.isDigit then some (r2.dropWhile Char.isDigit) else none
          | [] => none
        else some l2
      | [] => some l2
    match afterFrac? with
    | none => none
    | some l3 =>
      match l3 with
      | c :: r =>
        if c = 'e' || c = 'E' then
          let r1 := match r with
            | d :: r2 => if d = '+' || d = '-' then r2 else r
            | [] => r
          match r1 with
          | d :: r2 => if d.isDigit then some (r2.dropWhile Char.isDigit) else none
          | [] => none
        else some l3
      | [] => some l3

mutual

/-- Fueled recursive-descent parser for one JSON value.  The callers pass
fuel `2 * length + 2`, which cannot run out: every two consecutive
recursive calls consume at least one input character. -/
def parseValue : Nat → List Char → Option (Json × List Char)
  | 0, _ => none
  | fuel+1, l =>
    match l with
    | [] => none
    | c :: rest =>
      if c = dquote then
        match parseStringBody rest with
        | some (cs, r) => some (.str ⟨cs⟩, r)
        | none => none
      else if c = '[' then
        match skipJsonWs rest with
        | d :: r2 =>
          if d = ']' then some (.arr [], r2)
          else
            match parseItems fuel (skipJsonWs rest) with
            | some (es, r3) => some (.arr es, r3)
            | none => none
        | [] => none
      else if c = '\x7b' then
        match skipJsonWs rest with
        | d :: r2 =>
          if d = '\x7d' then some (.obj, r2)
          else
            match parseMembers fuel (skipJsonWs rest) with
            | some r3 => some (.obj, r3)
            | none => none
        | [] => none
      else if c = 't' then
        match l with
        | 't' :: 'r' :: 'u' :: 'e' :: r => some (.bool true, r)
        | _ => none
      else if c = 'f' then
        match l with
        | 'f' :: 'a' :: 'l' :: 's' :: 'e' :: r => some (.bool false, r)
        | _ => none
      else if c = 'n' then
        match l with
        | 'n' :: 'u' :: 'l' :: 'l' :: r => some (.null, r)
        | _ => none
      else
        match parseNumber l with
        | some r => some (.num, r)
        | none => none

/-- Parse one or more comma-separated array items up to the closing `]`. -/
def parseItems : Nat → List Char → Option (List Json × List Char)
  | 0, _ => none
  | fuel+1, l =>
    match parseValue fuel (skipJsonWs l) with
    | some (v, r) =>
      match skipJsonWs r with
      | c :: r2 =>
        if c = ',' then
          match parseItems fuel r2 with
          | some (vs, r3) => some (v :: vs, r3)
          | none => none
        else if c = ']' then some ([v], r2)
        else none
      | [] => none
    | none => none

/-- Parse one or more `"key": value` object members up to the closing
brace, returning the remainder. -/
def parseMembers : Nat → List Char → Option (List Char)
  | 0, _ => none
  | fuel+1, l =>
    match skipJsonWs l with
    | c :: rest =>
      if c = dquote then
        match parseStringBody rest with
        | some (_, r) =>
          match skipJsonWs r with
          | d :: r2 =>
            if d = ':' then
              match parseValue fuel (skipJsonWs r2) with
              | some (_, r3) =>
                match skipJsonWs r3 with
                | e :: r4 =>
                  if e = ',' then parseMembers fuel r4
                  else if e = '\x7d' then some r4
                  else none
                | [] => none
              | none => none
            else none
          | [] => none
        | none => none
      else none
    | [] => none

end

/-- `JSON.parse`: parse a complete JSON document (a single value framed by
optional whitespace). -/
def jsonParse (s : String) : Option Json :=
  match parseValue (2 * s.data.length + 2) (skipJsonWs s.data) with
  | some (v, r) => if skipJsonWs r = [] then some v else none
  | none => none

/-- The substring matched by `rawResponse.match(/\[[\s\S]*?\]/)`: from the
first `[` of the input to the first `]` after it, or `none` when no such
pair exists. -/
def firstBracketMatch (l : List Char) : Option (List Char) :=
  match l.dropWhile (fun c => !(c = '[')) with
  | [] => none
  | c :: rest =>
    if rest.dropWhile (fun c => !(c = ']')) = [] then none
    else some (c :: (rest.takeWhile (fun c => !(c = ']')) ++ [']']))

/-- The string elements of a parsed JSON array, in order
(`typeof t === "string"`). -/
def jsonStrings (elems : List Json) : List String :=
  elems.filterMap fun j => match j with
    | .str s => some s
    | _ => none

/-- The elements of the JSON array located by strategy 1: empty when no
bracketed substring exists, when `JSON.parse` throws, or when the parsed
value is not an array — in each of those cases the route leaves
`tags = []`, which coincides with filtering an empty element list. -/
def strategyOneElems (raw : String) : List Json :=
  match firstBracketMatch raw.data with
  | none => []
  | some sub =>
    match jsonParse ⟨sub⟩ with
    | some (.arr elems) => elems
    | _ => []

/-- Strategy 1 of the `/ai/tags` route: find a JSON array anywhere in the
response, parse it, keep the string elements whose trim is non-empty, and
truncate to five (`parsed.filter((t) => typeof t === "string" && t.trim()).slice(0, 5)`). -/
def structuredTags (raw : String) : List String :=
  ((jsonStrings (strategyOneElems raw)).filter (fun s => jsTrim s != "")).take 5

/-- Whether three consecutive backticks start here. -/
def startsFence : List Char → Bool
  | a :: b :: c :: _ => a = backtick && b = backtick && c = backtick
  | _ => false

/-- Find the first closing code fence, returning the characters after it. -/
def findFenceClose : List Char → Option (List Char)
  | [] => none
  | a :: rest => if startsFence (a :: rest) then some (rest.drop 2) else findFenceClose rest

/-- Fueled worker for `stripFences`.  Fuel `length` cannot run out: every
step recurses on a strictly shorter list. -/
def stripFencesFuel : Nat → List Char → List Char
  | 0, l => l
  | fuel+1, l =>
    match l with
    | [] => []
    | a :: rest =>
      if startsFence l then
        match findFenceClose (rest.drop 2) with
        | some after => stripFencesFuel fuel after
        | none => l
      else a :: stripFencesFuel fuel rest

/-- `.replace(/```[\s\S]*?```/g, "")`: delete every fenced span (an
opening triple backtick with a closing one somewhere after it); an
unmatched opening fence is left in place. -/
def stripFences (l : List Char) : List Char :=
  stripFencesFuel l.length l

/-- The regex class `[*\-\d.]`. -/
def isMarkerChar (c : Char) : Bool :=
  c = '*' || c = '-' || c = '.' || c.isDigit

/-- Fueled worker for `replaceMarkers`; fuel `length` cannot run out. -/
def replaceMarkersFuel : Nat → List Char → List Char
  | 0, l => l
  | _+1, [] => []
  | fuel+1, c :: rest =>
    if isMarkerChar c then
      ' ' :: replaceMarkersFuel fuel ((rest.dropWhile isMarkerChar).dropWhile jsIsWS)
    else c :: replaceMarkersFuel fuel rest

/-- `.replace(/[*\-\d.]+\s*/g, " ")`: each maximal run of list-marker
characters plus any following whitespace becomes a single space. -/
def replaceMarkers (l : List Char) : List Char :=
  replaceMarkersFuel l.length l

/-- `.replace(/[\[\]"']/g, "")`: delete brackets and quotes. -/
def removeQuoteBrackets (l : List Char) : List Char :=
  l.filter (fun c => !(c = '[' || c = ']' || c = dquote || c = squote))

/-- The regex class `[,\n]`. -/
def isSepChar (c : Char) : Bool :=
  c = ',' || c = '\n'

/-- Fueled worker for `splitSeps`; fuel `length` cannot run out. -/
def splitSepsFuel : Nat → List Char → List Char → List (List Char)
  | 0, acc, _ => [acc.reverse]
  | _+1, acc, [] => [acc.reverse]
  | fuel+1, acc, c :: rest =>
    if isSepChar c then acc.reverse :: splitSepsFuel fuel [] (rest.dropWhile isSepChar)
    else splitSepsFuel fuel (c :: acc) rest

/-- `.split(/[,\n]+/)`: split at each maximal run of commas/newlines,
keeping the (possibly empty) pieces before the first and after the last
run, exactly as JS `String.prototype.split` with a regex separator. -/
def splitSeps (l : List Char) : List (List Char) :=
  splitSepsFuel l.length [] l

/-- Strategy 2 of the `/ai/tags` route: the heuristic fallback chain —
strip code fences, replace list markers, delete quotes/brackets, split on
commas and newlines, trim and lowercase, keep candidates of length
strictly between 1 and 30, truncate to five. -/
def heuristicTags (raw : String) : List String :=
  (((splitSeps (removeQuoteBrackets (replaceMarkers (stripFences raw.data)))).map
      (fun p => jsToLower (jsTrim ⟨p⟩))).filter
      (fun t => decide (1 < t.length) && decide (t.length < 30))).take 5

/-- The full tag reconciliation: strategy 1, then strategy 2 when the
first yields nothing (`if (tags.length === 0) { ... }`). -/
def parsedTags (raw : String) : List String :=
  let t1 := structuredTags raw
  if t1.isEmpty then heuristicTags raw else t1

/-! ## Document store and routes
(`lib/hono/routes/pages.routes.ts`, `lib/hono/routes/ai.routes.ts`)

The MongoDB `pages` collection is modelled as a list of documents;
`findOne`/`findOneAndUpdate`/`findOneAndDelete` act on the first document
matching their filter (ids are unique in the real store, so "first match"
is exact).  `connectDB`, Mongoose casting errors and store-write failures
are out of scope: store operations are total here. -/

/-- One document of the `pages` collection. -/
structure PageDoc where
  id : String
  userId : String
  title : String
  icon : Option String
  coverImage : Option String
  content : List Block
  tags : List String
  summary : Option String
  isFavorite : Bool
  isArchived : Bool

/-- `Page.findOne({ _id: pid, userId: uid })`. -/
def findOwned (store : List PageDoc) (uid pid : String) : Option PageDoc :=
  store.find? (fun p => p.id == pid && p.userId == uid)

/-- Update the first document matching `{ _id: pid, userId: uid }`. -/
def updateOwnedFirst (store : List PageDoc) (uid pid : String) (f : PageDoc → PageDoc) : List PageDoc :=
  match store with
  | [] => []
  | p :: ps =>
    if p.id == pid && p.userId == uid then f p :: ps
    else p :: updateOwnedFirst ps uid pid f

/-- Remove the first document matching `{ _id: pid, userId: uid }`
(`findOneAndDelete`). -/
def removeOwnedFirst (store : List PageDoc) (uid pid : String) : List PageDoc :=
  match store with
  | [] => []
  | p :: ps =>
    if p.id == pid && p.userId == uid then ps
    else p :: removeOwnedFirst ps uid pid

/-- `Page.findByIdAndUpdate(pid, ...)`: update the first document with the
given id — the filter carries NO owner condition. -/
def updateByIdFirst (store : List PageDoc) (pid : String) (f : PageDoc → PageDoc) : List PageDoc :=
  match store with
  | [] => []
  | p :: ps =>
    if p.id == pid then f p :: ps
    else p :: updateByIdFirst ps pid f

/-- Response of a pages route, together with the post-state of the store. -/
structure PagesOut where
  status : Nat
  success : Bool
  error : Option String
  page : Option PageDoc
  isFavorite : Option Bool
  isArchived : Option Bool
  message : Option String
  store : List PageDoc

/-- `GET /pages/:id` for an authenticated user `uid`. -/
def getPageRoute (uid pid : String) (store : List PageDoc) : PagesOut :=
  match findOwned store uid pid with
  | none => ⟨404, false, some "Page not found", none, none, none, none, store⟩
  | some p => ⟨200, true, none, some p, none, none, none, store⟩

/-- The allow-listed fields of a `PATCH /pages/:id` body; `none` stands
for a field absent from the body.  Fields outside the allow-list are
dropped by the handler before this point and are not represented. -/
structure PatchBody where
  title : Option String
  icon : Option String
  coverImage : Option String
  content : Option (List Block)
  tags : Option (List String)
  summary : Option String

/-- Whether no allow-listed field is present
(`Object.keys(validatedData).length === 0`). -/
def patchIsEmpty (pb : PatchBody) : Bool :=
  pb.title.isNone && pb.icon.isNone && pb.coverImage.isNone &&
  pb.content.isNone && pb.tags.isNone && pb.summary.isNone

/-- `$set` of the present fields. -/
def applyPatch (pb : PatchBody) (p : PageDoc) : PageDoc :=
  { p with
    title := pb.title.getD p.title
    icon := match pb.icon with | some i => some i | none => p.icon
    coverImage := match pb.coverImage with | some c => some c | none => p.coverImage
    content := pb.content.getD p.content
    tags := pb.tags.getD p.tags
    summary := match pb.summary with | some s => some s | none => p.summary }

/-- `PATCH /pages/:id`. -/
def updatePageRoute (uid pid : String) (pb : PatchBody) (store : List PageDoc) : PagesOut :=
  if patchIsEmpty pb then
    ⟨400, false, some "No valid fields to update", none, none, none, none, store⟩
  else
    match findOwned store uid pid with
    | none => ⟨404, false, some "Page not found", none, none, none, none, store⟩
    | some p =>
      ⟨200, true, none, some (applyPatch pb p), none, none, none,
        updateOwnedFirst store uid pid (applyPatch pb)⟩

/-- `PATCH /pages/:id/favorite`: toggle the favorite flag of an owned
page.  The handler performs no check of the archived flag. -/
def toggleFavoriteRoute (uid pid : String) (store : List PageDoc) : PagesOut :=
  match findOwned store uid pid with
  | none => ⟨404, false, some "Page not found", none, none, none, none, store⟩
  | some p =>
    ⟨200, true, none, none, some (!p.isFavorite), none, none,
      updateOwnedFirst store uid pid (fun q => { q with isFavorite := !q.isFavorite })⟩

/-- `PATCH /pages/:id/archive`: toggle the archived flag; when the new
value is `true` the favorite flag is cleared
(`if (existingPage.isArchived) existingPage.isFavorite = false`). -/
def toggleArchiveRoute (uid pid : String) (store : List PageDoc) : PagesOut :=
  match findOwned store uid pid with
  | none => ⟨404, false, some "Page not found", none, none, none, none, store⟩
  | some p =>
    ⟨200, true, none, none, none, some (!p.isArchived), none,
      updateOwnedFirst store uid pid (fun q =>
        { q with isArchived := !q.isArchived,
                 isFavorite := if !q.isArchived then false else q.isFavorite })⟩

/-- `DELETE /pages/:id`. -/
def deletePageRoute (uid pid : String) (store : List PageDoc) : PagesOut :=
  match findOwned store uid pid with
  | none => ⟨404, false, some "Page not found", none, none, none, none, store⟩
  | some _ =>
    ⟨200, true, none, none, none, none, some "Page deleted permanently",
      removeOwnedFirst store uid pid⟩

/-! ## AI routes (`lib/hono/routes/ai.routes.ts`) -/

/-- Outcome of the single `openai.chat.completions.create` call:
the completion content (`choices[0]?.message?.content`, `none` when
absent), a rate-limit error, or any other thrown error. -/
inductive AIOutcome where
  | ok (content : Option String)
  | rateLimit
  | otherError

/-- The loosely-typed JSON body of an AI route; each field is `none` when
absent or not a string (the handlers read them with
`typeof body.x === "string" ? body.x : d`). -/
structure AiBody where
  pageId : Option String
  content : Option String
  title : Option String
  selection : Option String
  prompt : Option String

/-- Response of an AI route, the post-state of the store, the number of
provider calls made, and the user-role message sent to the provider (if
a call was made). -/
structure AiOut where
  status : Nat
  success : Bool
  error : Option String
  result : Option String
  tagsResult : Option (List String)
  store : List PageDoc
  providerCalls : Nat
  sentUserPrompt : Option String

/-- User message of `getSummarizePrompt`. -/
def summarizeUserMessage (title content : String) : String :=
  "Note Title: " ++ title ++ "\n\nNote Content:\n" ++ content

/-- User message of `getTagsPrompt`. -/
def tagsUserMessage (title content : String) : String :=
  "Note Title: " ++ title ++ "\n\nNote Content:\n" ++ content

/-- `selection || content`: the text the improve feature operates on, as
computed both by the route handler and inside `getImprovePrompt`.  A
`some ""` selection is falsy in JS and falls back to the content. -/
def improveTarget (content : String) (selection : Option String) : String :=
  match selection with
  | some s => if s = "" then content else s
  | none => content

/-- User message of `getImprovePrompt`. -/
def improveUserMessage (content : String) (selection : Option String) : String :=
  "Please improve this text:\n\n" ++ improveTarget content selection

/-- User message of `getGeneratePrompt`. -/
def generateUserMessage (userPrompt : String) : String :=
  "User Request: " ++ userPrompt

/-- `POST /ai/summarize`.  Note that the persistence step is
`Page.findByIdAndUpdate(pageId, { summary })`: it is not scoped by the
caller's identity, so the handler takes no user argument. -/
def summarizeRoute (body : AiBody) (store : List PageDoc) (ai : AIOutcome) : AiOut :=
  let pageId := body.pageId.getD ""
  let content := body.content.getD ""
  let title := body.title.getD "Untitled"
  if pageId = "" ∨ content = "" then
    ⟨400, false, some "pageId and content are required", none, none, store, 0, none⟩
  else if (jsTrim content).length < 20 then
    ⟨400, false, some "Note content is too short to summarize. Add more content!",
      none, none, store, 0, none⟩
  else
    let sent := some (summarizeUserMessage (if title = "" then "Untitled" else title) content)
    match ai with
    | .rateLimit =>
      ⟨429, false, some "AI rate limit reached. Please try again in a moment.",
        none, none, store, 1, sent⟩
    | .otherError =>
      ⟨500, false, some "Failed to generate summary", none, none, store, 1, sent⟩
    | .ok c =>
      let summary := match c with
        | some s => jsTrim s
        | none => ""
      if summary = "" then
        ⟨500, false, some "AI returned an empty response", none, none, store, 1, sent⟩
      else
        ⟨200, true, none, some summary, none,
          updateByIdFirst store pageId (fun p => { p with summary := some summary }), 1, sent⟩

/-- `POST /ai/improve`.  No branch touches the store. -/
def improveRoute (body : AiBody) (store : List PageDoc) (ai : AIOutcome) : AiOut :=
  let content := body.content.getD ""
  let target := improveTarget content body.selection
  if (jsTrim target).length < 5 then
    ⟨400, false, some "Please provide more text to improve.", none, none, store, 0, none⟩
  else
    let sent := some (improveUserMessage content body.selection)
    match ai with
    | .rateLimit =>
      ⟨429, false, some "AI rate limit reached. Please try again in a moment.",
        none, none, store, 1, sent⟩
    | .otherError =>
      ⟨500, false, some "Failed to improve text", none, none, store, 1, sent⟩
    | .ok c =>
      let improved := match c with
        | some s => jsTrim s
        | none => ""
      if improved = "" then
        ⟨500, false, some "AI returned an empty response", none, none, store, 1, sent⟩
      else
        ⟨200, true, none, some improved, none, store, 1, sent⟩

/-- `POST /ai/tags`.  Persistence, as for summarize, is
`Page.findByIdAndUpdate(pageId, { tags })` without an owner condition. -/
def tagsRoute (body : AiBody) (store : List PageDoc) (ai : AIOutcome) : AiOut :=
  let pageId := body.pageId.getD ""
  let content := body.content.getD ""
  let title := body.title.getD "Untitled"
  if pageId = "" ∨ content = "" then
    ⟨400, false, some "pageId and content are required", none, none, store, 0, none⟩
  else if (jsTrim content).length < 10 then
    ⟨400, false, some "Note content is too short to generate tags.", none, none, store, 0, none⟩
  else
    let sent := some (tagsUserMessage (if title = "" then "Untitled" else title) content)
    match ai with
    | .rateLimit =>
      ⟨429, false, some "AI rate limit reached. Please try again in a moment.",
        none, none, store, 1, sent⟩
    | .otherError =>
      ⟨500, false, some "Failed to generate tags", none, none, store, 1, sent⟩
    | .ok c =>
      let rawResponse := match c with
        | some s => jsTrim s
        | none => ""
      if rawResponse = "" then
        ⟨500, false, some "AI returned empty response", none, none, store, 1, sent⟩
      else
        let tags := parsedTags rawResponse
        if tags.isEmpty then
          ⟨500, false, some "AI could not generate tags", none, none, store, 1, sent⟩
        else
          ⟨200, true, none, none, some tags,
            updateByIdFirst store pageId (fun p => { p with tags := tags }), 1, sent⟩

/-- `POST /ai/generate`.  No branch touches the store. -/
def generateRoute (body : AiBody) (store : List PageDoc) (ai : AIOutcome) : AiOut :=
  let userPrompt := body.prompt.getD ""
  if jsTrim userPrompt = "" then
    ⟨400, false, some "Prompt is required", none, none, store, 0, none⟩
  else
    let sent := some (generateUserMessage userPrompt)
    match ai with
    | .rateLimit =>
      ⟨429, false, some "AI rate limit reached. Please try again in a moment.",
        none, none, store, 1, sent⟩
    | .otherError =>
      ⟨500, false, some "Failed to generate content", none, none, store, 1, sent⟩
    | .ok c =>
      let generated := match c with
        | some s => jsTrim s
        | none => ""
      if generated = "" then
        ⟨500, false, some "AI returned an empty response", none, none, store, 1, sent⟩
      else
        ⟨200, true, none, some generated, none, store, 1, sent⟩

/-! ## Debounced Save Controller (`components/editor/Editor.tsx`)

`handleChange` captures the current blocks, clears any pending timer and
arms a fresh 1.5-second timer whose callback saves the captured blocks.
The model is a discrete-event semantics over a single-threaded timeline
(the spec's scheduling model): an edit event at time `t` first lets a
pending timer whose deadline has passed fire, then re-arms the timer with
deadline `t + 1500` and the edit's blocks.  The payload type is abstract —
`handleChange` never inspects the blocks. -/

/-- The debounce quiet interval, milliseconds (`setTimeout(..., 1500)`). -/
def debounceDelay : Nat := 1500

/-- Timer state and the list of `onSave` calls fired so far, each with its
fire time and the blocks it carried. -/
structure DebState (α : Type) where
  pending : Option (Nat × α)
  saves : List (Nat × α)

/-- One `handleChange` invocation at time `t` with current blocks `b`. -/
def debEdit {α : Type} (st : DebState α) (t : Nat) (b : α) : DebState α :=
  let fired := match st.pending with
    | some (d, pb) => if d ≤ t then st.saves ++ [(d, pb)] else st.saves
    | none => st.saves
  ⟨some (t + debounceDelay, b), fired⟩

/-- Let time run to infinity: a still-pending timer fires. -/
def debFlush {α : Type} (st : DebState α) : List (Nat × α) :=
  match st.pending with
  | some (d, pb) => st.saves ++ [(d, pb)]
  | none => st.saves

/-- The `onSave` calls produced by a sequence of timed edits in one
editing session (no teardown). -/
def debRun {α : Type} (edits : List (Nat × α)) : List (Nat × α) :=
  debFlush (edits.foldl (fun st e => debEdit st e.1 e.2) ⟨none, []⟩)

/-! ## Extractor equivalence with the spec description -/

/-- Bundle relating the line list built by the source code with the
flattened line list of the spec description: equal joined text, matching
emptiness, and every line carries non-whitespace content. -/
def LinesOK (code spec : List String) : Prop :=
  joinLines code = joinLines spec ∧ (code = [] ↔ spec = []) ∧
  (∀ s ∈ code, jsTrim s ≠ "") ∧ (∀ s ∈ spec, jsTrim s ≠ "")

/-! ## Claim-instance definitions -/

/-- The string elements (in order) of the JSON array located by strategy 1,
before the non-whitespace filter and the truncation to five.  Used to state
that the kept tags are a subsequence of the array's string elements. -/
def arrayStringElems (raw : String) : List String :=
  jsonStrings (strategyOneElems raw)

/-- A store document owned by user `bob`, used as the cross-owner target. -/
def bobPage : PageDoc :=
  ⟨"p-bob", "bob", "Bobs note", none, none, [], [], none, false, false⟩

/-- A favorited, non-archived document owned by user `u`. -/
def favPage : PageDoc :=
  ⟨"p1", "u", "T", none, none, [], [], none, true, false⟩

/-! ## String lemmas -/

theorem jsTrimL_eq_nil_iff (l : List Char) : jsTrimL l = [] ↔ ∀ c ∈ l, jsIsWS c := by
  unfold jsTrimL
  rw [List.rdropWhile_eq_nil_iff]
  constructor
  · intro h c hc
    rw [← List.takeWhile_append_dropWhile (p := jsIsWS) (l := l)] at hc
    rcases List.mem_append.1 hc with h1 | h2
    · exact List.mem_takeWhile_imp h1
    · exact h c h2
  · intro h c hc
    exact h c ((List.dropWhile_sublist jsIsWS).subset hc)

theorem string_mk_eq_empty_iff (l : List Char) : (⟨l⟩ : String) = "" ↔ l = [] := by
  constructor
  · intro h
    have := congrArg String.data h
    simpa using this
  · intro h
    rw [h]

theorem jsTrim_eq_empty_iff (s : String) : jsTrim s = "" ↔ ∀ c ∈ s.data, jsIsWS c := by
  unfold jsTrim
  rw [string_mk_eq_empty_iff, jsTrimL_eq_nil_iff]

theorem joinLines_cons_cons (a b : String) (t : List String) :
    joinLines (a :: b :: t) = a ++ "\n" ++ joinLines (b :: t) := rfl

theorem joinLines_append (xs ys : List String) (hx : xs ≠ []) (hy : ys ≠ []) :
    joinLines (xs ++ ys) = joinLines xs ++ "\n" ++ joinLines ys := by
  induction xs with
  | nil => exact absurd rfl hx
  | cons a xs ih =>
    cases xs with
    | nil =>
      cases ys with
      | nil => exact absurd rfl hy
      | cons c t => rfl
    | cons b t =>
      have h1 : joinLines ((a :: b :: t) ++ ys) = a ++ "\n" ++ joinLines ((b :: t) ++ ys) := rfl
      rw [h1, ih (by simp), joinLines_cons_cons]
      simp [String.append_assoc]

theorem jsTrim_append_ne_empty (a b : String) (h : jsTrim a ≠ "") : jsTrim (a ++ b) ≠ "" := by
  intro hab
  apply h
  rw [jsTrim_eq_empty_iff] at hab ⊢
  intro c hc
  apply hab c
  rw [String.data_append]
  exact List.mem_append_left _ hc

theorem jsTrim_joinLines_eq_empty_iff (L : List String) (h : ∀ s ∈ L, jsTrim s ≠ "") :
    jsTrim (joinLines L) = "" ↔ L = [] := by
  cases L with
  | nil =>
    constructor
    · intro _; rfl
    · intro _; decide
  | cons s rest =>
    constructor
    · intro hj
      exfalso
      cases rest with
      | nil => exact h s (by simp) hj
      | cons b t =>
        rw [joinLines_cons_cons] at hj
        exact jsTrim_append_ne_empty _ _ (jsTrim_append_ne_empty _ _ (h s (by simp))) hj
    · intro h'
      cases h'

/-! ## Extractor equivalence lemmas -/

theorem linesOK_nil : LinesOK [] [] :=
  ⟨rfl, Iff.rfl, by simp, by simp⟩

theorem linesOK_refl (L : List String) (h : ∀ s ∈ L, jsTrim s ≠ "") : LinesOK L L :=
  ⟨rfl, Iff.rfl, h, h⟩

theorem linesOK_append {a b c d : List String} (h1 : LinesOK a b) (h2 : LinesOK c d) :
    LinesOK (a ++ c) (b ++ d) := by
  obtain ⟨j1, e1, m1, m1s⟩ := h1
  obtain ⟨j2, e2, m2, m2s⟩ := h2
  refine ⟨?_, ?_, ?_, ?_⟩
  · by_cases ha : a = []
    · have hb : b = [] := e1.mp ha
      simp [ha, hb, j2]
    · have hb : b ≠ [] := fun h => ha (e1.mpr h)
      by_cases hc : c = []
      · have hd : d = [] := e2.mp hc
        simp [hc, hd, j1]
      · have hd : d ≠ [] := fun h => hc (e2.mpr h)
        rw [joinLines_append a c ha hc, joinLines_append b d hb hd, j1, j2]
  · constructor
    · intro h
      rcases List.append_eq_nil.mp h with ⟨h1, h2⟩
      simp [e1.mp h1, e2.mp h2]
    · intro h
      rcases List.append_eq_nil.mp h with ⟨h1, h2⟩
      simp [e1.mpr h1, e2.mpr h2]
  · intro s hs
    rcases List.mem_append.1 hs with h | h
    · exact m1 s h
    · exact m2 s h
  · intro s hs
    rcases List.mem_append.1 hs with h | h
    · exact m1s s h
    · exact m2s s h

theorem lineOf_nonWS (s : String) : ∀ t ∈ lineOf s, jsTrim t ≠ "" := by
  intro t ht
  unfold lineOf at ht
  split at ht
  · simp at ht
  · next h =>
    simp at ht
    rw [ht]
    exact h

theorem contentLines_nonWS (c? : Option (List InlineContent)) :
    ∀ s ∈ contentLines c?, jsTrim s ≠ "" := by
  cases c? with
  | none => simp [contentLines]
  | some items => exact lineOf_nonWS (inlineJoin items)

theorem linesOK_child {L S : List String} (h : LinesOK L S) :
    LinesOK (lineOf (joinLines L)) S := by
  obtain ⟨j, e, mL, mS⟩ := h
  by_cases hL : L = []
  · have hS : S = [] := e.mp hL
    subst hL
    subst hS
    have : lineOf (joinLines ([] : List String)) = [] := by
      unfold lineOf
      rw [if_pos (by decide)]
    rw [this]
    exact linesOK_nil
  · have hS : S ≠ [] := fun h' => hL (e.mpr h')
    have hne : jsTrim (joinLines L) ≠ "" := fun h' =>
      hL ((jsTrim_joinLines_eq_empty_iff L mL).mp h')
    rw [lineOf, if_neg hne]
    refine ⟨?_, ?_, ?_, mS⟩
    · show joinLines [joinLines L] = joinLines S
      rw [show joinLines [joinLines L] = joinLines L from rfl, j]
    · constructor
      · intro h'
        exact absurd h' (by simp)
      · intro h'
        exact absurd h' hS
    · intro s hs
      simp at hs
      rw [hs]
      exact hne

mutual

theorem linesOK_block : (b : Block) → LinesOK (blockLines b) (specBlockLines b)
  | .mk ty c? ch? => by
    unfold blockLines specBlockLines
    refine linesOK_append (linesOK_refl _ (contentLines_nonWS c?)) ?_
    exact match ch? with
      | some bs => linesOK_child (linesOK_blocks bs)
      | none => linesOK_nil

theorem linesOK_blocks : (bs : List Block) → LinesOK (blocksLines bs) (specBlocksLines bs)
  | [] => linesOK_nil
  | b :: bs => by
    unfold blocksLines specBlocksLines
    exact linesOK_append (linesOK_block b) (linesOK_blocks bs)

end

mutual

theorem specBlockLines_nil_of_noText : (b : Block) → blockHasText b = false → specBlockLines b = []
  | .mk ty c? ch? => by
    intro h
    unfold blockHasText at h
    rw [Bool.or_eq_false_iff] at h
    obtain ⟨h1, h2⟩ := h
    unfold specBlockLines
    rw [List.append_eq_nil]
    constructor
    · cases c? with
      | none => rfl
      | some items =>
        simp only [bne_eq_false_iff_eq] at h1
        show lineOf (inlineJoin items) = []
        unfold lineOf
        rw [if_pos h1]
    · cases ch? with
      | none => rfl
      | some bs => exact specBlocksLines_nil_of_noText bs h2

theorem specBlocksLines_nil_of_noText :
    (bs : List Block) → blocksHaveText bs = false → specBlocksLines bs = []
  | [] => fun _ => rfl
  | b :: bs => by
    intro h
    unfold blocksHaveText at h
    rw [Bool.or_eq_false_iff] at h
    unfold specBlocksLines
    rw [List.append_eq_nil]
    exact ⟨specBlockLines_nil_of_noText b h.1, specBlocksLines_nil_of_noText bs h.2⟩

end

/-! ## Lowercasing and trimming lemmas -/

theorem char_toNat_ofNat (n : Nat) (h : n < 55296) : (Char.ofNat n).toNat = n := by
  unfold Char.ofNat
  split
  · rfl
  · next h2 => exact absurd (Or.inl h) h2

theorem jsIsWS_eq_false_of_alpha (c : Char) (h1 : 65 ≤ c.toNat) (h2 : c.toNat ≤ 122) :
    jsIsWS c = false := by
  unfold jsIsWS
  simp only [Bool.or_eq_false_iff, Bool.and_eq_false_iff, decide_eq_false_iff_not]
  omega

theorem jsIsWS_jsToLowerChar (c : Char) : jsIsWS (jsToLowerChar c) = jsIsWS c := by
  unfold jsToLowerChar
  split
  · next h =>
    have ht : (Char.ofNat (c.toNat + 32)).toNat = c.toNat + 32 :=
      char_toNat_ofNat _ (by omega)
    have hl : jsIsWS (Char.ofNat (c.toNat + 32)) = false :=
      jsIsWS_eq_false_of_alpha _ (by rw [ht]; omega) (by rw [ht]; omega)
    have hr : jsIsWS c = false := jsIsWS_eq_false_of_alpha c (by omega) (by omega)
    rw [hl, hr]
  · rfl

theorem jsToLowerChar_idem (c : Char) : jsToLowerChar (jsToLowerChar c) = jsToLowerChar c := by
  unfold jsToLowerChar
  split
  · next h =>
    have ht : (Char.ofNat (c.toNat + 32)).toNat = c.toNat + 32 :=
      char_toNat_ofNat _ (by omega)
    rw [if_neg (by omega)]
  · rfl

theorem dropWhile_jsTrimL (l : List Char) : (jsTrimL l).dropWhile jsIsWS = jsTrimL l := by
  cases h : jsTrimL l with
  | nil => rfl
  | cons a tl =>
    rw [List.dropWhile_cons_of_neg]
    have hpre := List.rdropWhile_prefix jsIsWS (l.dropWhile jsIsWS)
    rw [show List.rdropWhile jsIsWS (l.dropWhile jsIsWS) = jsTrimL l from rfl, h] at hpre
    rcases hpre with ⟨t, ht⟩
    have hhead : (l.dropWhile jsIsWS).head? = some a := by
      rw [← ht]
      rfl
    have hmatch := List.head?_dropWhile_not jsIsWS l
    simp only [hhead] at hmatch
    simp [hmatch]

theorem jsTrimL_idem (l : List Char) : jsTrimL (jsTrimL l) = jsTrimL l := by
  show List.rdropWhile jsIsWS ((jsTrimL l).dropWhile jsIsWS) = jsTrimL l
  rw [dropWhile_jsTrimL]
  show List.rdropWhile jsIsWS (List.rdropWhile jsIsWS (l.dropWhile jsIsWS)) = jsTrimL l
  rw [List.rdropWhile_idempotent]
  rfl

theorem jsTrimL_map_jsToLowerChar (l : List Char) :
    jsTrimL (l.map jsToLowerChar) = (jsTrimL l).map jsToLowerChar := by
  have hcomp : (jsIsWS ∘ jsToLowerChar) = jsIsWS := by
    funext c
    exact jsIsWS_jsToLowerChar c
  unfold jsTrimL List.rdropWhile
  rw [List.dropWhile_map, hcomp, ← List.map_reverse, List.dropWhile_map, hcomp, ← List.map_reverse]


theorem jsTrim_jsToLower_comm (s : String) : jsTrim (jsToLower s) = jsToLower (jsTrim s) := by
  unfold jsTrim jsToLower
  rw [show (⟨s.data.map jsToLowerChar⟩ : String).data = s.data.map jsToLowerChar from rfl,
    jsTrimL_map_jsToLowerChar]

theorem jsToLower_idem (s : String) : jsToLower (jsToLower s) = jsToLower s := by
  unfold jsToLower
  rw [show (⟨s.data.map jsToLowerChar⟩ : String).data = s.data.map jsToLowerChar from rfl,
    List.map_map]
  congr 1
  apply List.map_congr_left
  intro c _
  exact jsToLowerChar_idem c

theorem jsTrim_idem (s : String) : jsTrim (jsTrim s) = jsTrim s := by
  unfold jsTrim
  rw [show (⟨jsTrimL s.data⟩ : String).data = jsTrimL s.data from rfl, jsTrimL_idem]

theorem jsTrim_of_lower_trim (s : String) :
    jsTrim (jsToLower (jsTrim s)) = jsToLower (jsTrim s) := by
  rw [jsTrim_jsToLower_comm, jsTrim_idem]

theorem jsToLower_of_lower_trim (s : String) :
    jsToLower (jsToLower (jsTrim s)) = jsToLower (jsTrim s) :=
  jsToLower_idem (jsTrim s)

/-! ## Debounce lemmas -/

theorem debRun_loop {α : Type} (edits : List (Nat × α)) :
    ∀ (tp : Nat) (bp : α) (saves : List (Nat × α)),
    List.Chain' (fun a b => a.1 < b.1 ∧ b.1 < a.1 + debounceDelay) ((tp, bp) :: edits) →
    edits.foldl (fun st e => debEdit st e.1 e.2) ⟨some (tp + debounceDelay, bp), saves⟩ =
      ⟨some ((edits.getLastD (tp, bp)).1 + debounceDelay, (edits.getLastD (tp, bp)).2), saves⟩ := by
  induction edits with
  | nil =>
    intro tp bp saves _
    rfl
  | cons e rest ih =>
    intro tp bp saves h
    have h1 : tp < e.1 ∧ e.1 < tp + debounceDelay := (List.chain'_cons.mp h).1
    have h2 : List.Chain' (fun a b => a.1 < b.1 ∧ b.1 < a.1 + debounceDelay) (e :: rest) :=
      (List.chain'_cons.mp h).2
    rw [List.foldl_cons]
    have hstep : debEdit ⟨some (tp + debounceDelay, bp), saves⟩ e.1 e.2 =
        ⟨some (e.1 + debounceDelay, e.2), saves⟩ := by
      unfold debEdit
      dsimp only
      rw [if_neg (by omega)]
    rw [hstep, List.getLastD_cons]
    exact ih e.1 e.2 saves (by rw [show ((e.1, e.2) : Nat × α) = e from rfl]; exact h2)

/-! ## Claim theorems -/

/-- C1 (code bug): the pages routes scope every lookup by owner — a GET by
`alice` on `bob`'s page id returns the very same 404 response as a GET on a
nonexistent id — but the AI-triggered persistence of the summary
(`Page.findByIdAndUpdate(pageId, { summary })`, `ai.routes.ts` line 83)
carries no owner condition: a summarize request by any authenticated caller
naming `bob`'s page id succeeds with status 200 and overwrites the summary
field of `bob`'s document. -/
theorem C1_ai_persistence_ignores_owner :
    (getPageRoute "alice" "p-bob" [bobPage]).status = 404 ∧
    getPageRoute "alice" "p-bob" [bobPage] = getPageRoute "alice" "no-such-id" [bobPage] ∧
    (summarizeRoute ⟨some "p-bob", some "This content is long enough to summarize.", none, none, none⟩
        [bobPage] (.ok (some "Injected summary"))).status = 200 ∧
    (summarizeRoute ⟨some "p-bob", some "This content is long enough to summarize.", none, none, none⟩
        [bobPage] (.ok (some "Injected summary"))).store =
      [{ bobPage with summary := some "Injected summary" }] := by
  exact ⟨rfl, rfl, rfl, rfl⟩

/-- C2 counterexample: the claim quantifies over contents with fewer than
20 non-whitespace characters, but the code tests `content.trim().length`,
which counts interior whitespace.  The 20-character content
`"a" ++ 18 spaces ++ "b"` has 2 non-whitespace characters yet passes
validation: the provider is called once and the request succeeds. -/
theorem C2_counterexample :
    countNonWS "a                  b" < 20 ∧
    (summarizeRoute ⟨some "p1", some "a                  b", none, none, none⟩ []
        (.ok (some "a summary"))).status = 200 ∧
    (summarizeRoute ⟨some "p1", some "a                  b", none, none, none⟩ []
        (.ok (some "a summary"))).providerCalls = 1 := by
  exact ⟨by decide, rfl, rfl⟩

/-- C2 (amended): every summarize request whose content, after trimming
leading and trailing whitespace, has fewer than 20 characters is rejected
with a 400 validation error, with no provider call and no store
mutation. -/
theorem C2_trimmed_short_summarize_rejected (body : AiBody) (store : List PageDoc)
    (ai : AIOutcome) (h : (jsTrim (body.content.getD "")).length < 20) :
    (summarizeRoute body store ai).status = 400 ∧
    (summarizeRoute body store ai).success = false ∧
    (summarizeRoute body store ai).store = store ∧
    (summarizeRoute body store ai).providerCalls = 0 := by
  unfold summarizeRoute
  dsimp only
  split
  · exact ⟨rfl, rfl, rfl, rfl⟩
  · exact ⟨rfl, rfl, rfl, rfl⟩

/-- C2 witness: the 5-character content `"short"` is rejected with 400 and
zero provider calls. -/
theorem C2_trimmed_short_summarize_rejected_witness :
    (jsTrim "short").length < 20 ∧
    (summarizeRoute ⟨some "p1", some "short", none, none, none⟩ [] (.ok (some "s"))).status = 400 ∧
    (summarizeRoute ⟨some "p1", some "short", none, none, none⟩ [] (.ok (some "s"))).providerCalls = 0 :=
  ⟨by decide,
   (C2_trimmed_short_summarize_rejected ⟨some "p1", some "short", none, none, none⟩ [] (.ok (some "s")) (by decide)).1,
   (C2_trimmed_short_summarize_rejected ⟨some "p1", some "short", none, none, none⟩ [] (.ok (some "s")) (by decide)).2.2.2⟩

/-- C3: the Text Extractor is a total function whose output is exactly the
flattened spec-described line list joined by single newlines — one line per
block whose inline content carries non-whitespace text, children's lines
after the parent's line, recursively — and a block sequence with no
non-whitespace text anywhere yields the empty string.  (Totality and
determinism hold by construction: `extractTextFromBlocks` is a total Lean
function.) -/
theorem C3_extractor_matches_spec :
    (∀ bs : List Block, extractTextFromBlocks bs = joinLines (specBlocksLines bs)) ∧
    (∀ bs : List Block, blocksHaveText bs = false → extractTextFromBlocks bs = "") := by
  constructor
  · intro bs
    exact (linesOK_blocks bs).1
  · intro bs h
    have hs := specBlocksLines_nil_of_noText bs h
    have hb : blocksLines bs = [] := (linesOK_blocks bs).2.1.mpr hs
    unfold extractTextFromBlocks
    rw [hb]
    rfl

/-- C3 witness: a single block whose only inline text is whitespace has no
text anywhere and extracts to the empty string. -/
theorem C3_extractor_matches_spec_witness :
    blocksHaveText [Block.mk none (some [InlineContent.mk "text" (some "   ") none]) none] = false ∧
    extractTextFromBlocks [Block.mk none (some [InlineContent.mk "text" (some "   ") none]) none] = "" :=
  ⟨by decide, C3_extractor_matches_spec.2 _ (by decide)⟩

/-- C6: when the provider returns a non-empty raw output on which both the
structured and the heuristic strategies yield zero tags, a valid tags
request fails with status 500 and the distinct error
"AI could not generate tags" (not an empty-array success, and a different
error string from the provider-failure responses), and the store — in
particular the document's tags field — is unchanged. -/
theorem C6_tags_total_failure (body : AiBody) (store : List PageDoc) (raw : String)
    (hpid : body.pageId.getD "" ≠ "")
    (hcont : body.content.getD "" ≠ "")
    (hlen : ¬ (jsTrim (body.content.getD "")).length < 10)
    (hraw : jsTrim raw ≠ "")
    (hs : structuredTags (jsTrim raw) = [])
    (hh : heuristicTags (jsTrim raw) = []) :
    (tagsRoute body store (.ok (some raw))).status = 500 ∧
    (tagsRoute body store (.ok (some raw))).success = false ∧
    (tagsRoute body store (.ok (some raw))).error = some "AI could not generate tags" ∧
    (tagsRoute body store (.ok (some raw))).tagsResult = none ∧
    (tagsRoute body store (.ok (some raw))).store = store := by
  have hparsed : parsedTags (jsTrim raw) = [] := by
    unfold parsedTags
    rw [hs]
    simpa using hh
  unfold tagsRoute
  dsimp only
  rw [if_neg (by push_neg; exact ⟨hpid, hcont⟩), if_neg hlen, if_neg hraw, hparsed]
  exact ⟨rfl, rfl, rfl, rfl, rfl⟩

/-- C6 witness: the raw output "x" admits neither a bracketed array nor any
comma/newline candidate of length above 1, so a valid request fails with
the terminal error and an unchanged store. -/
theorem C6_tags_total_failure_witness :
    structuredTags (jsTrim "x") = [] ∧ heuristicTags (jsTrim "x") = [] ∧
    (tagsRoute ⟨some "p1", some "0123456789x", none, none, none⟩ [favPage] (.ok (some "x"))).error =
      some "AI could not generate tags" ∧
    (tagsRoute ⟨some "p1", some "0123456789x", none, none, none⟩ [favPage] (.ok (some "x"))).store =
      [favPage] :=
  ⟨by decide, by decide,
   (C6_tags_total_failure ⟨some "p1", some "0123456789x", none, none, none⟩ [favPage] "x"
     (by decide) (by decide) (by decide) (by decide) (by decide) (by decide)).2.2.1,
   (C6_tags_total_failure ⟨some "p1", some "0123456789x", none, none, none⟩ [favPage] "x"
     (by decide) (by decide) (by decide) (by decide) (by decide) (by decide)).2.2.2.2⟩

/-- C7: any non-empty sequence of edits in one session, each arriving
strictly within the 1.5-second quiet interval of the previous one,
produces exactly one `onSave` call; it fires one quiet interval after the
last edit and carries the blocks captured at the last edit (each
`handleChange` clears the pending timer and re-arms it with the current
blocks, so the surviving timer holds the last edit's content). -/
theorem C7_debounce_coalescing {α : Type} (first : Nat × α) (rest : List (Nat × α))
    (h : List.Chain' (fun a b => a.1 < b.1 ∧ b.1 < a.1 + debounceDelay) (first :: rest)) :
    debRun (first :: rest) =
      [((rest.getLastD first).1 + debounceDelay, (rest.getLastD first).2)] := by
  unfold debRun
  rw [List.foldl_cons]
  have hfirst : debEdit (⟨none, []⟩ : DebState α) first.1 first.2 =
      ⟨some (first.1 + debounceDelay, first.2), []⟩ := rfl
  rw [hfirst, debRun_loop rest first.1 first.2 []
    (by rw [show ((first.1, first.2) : Nat × α) = first from rfl]; exact h)]
  rfl

/-- C7 witness: three edits at 0, 1000 and 2000 milliseconds (gaps of one
second) yield the single save at 3500 milliseconds carrying the third
edit's payload. -/
theorem C7_debounce_coalescing_witness :
    List.Chain' (fun a b => a.1 < b.1 ∧ b.1 < a.1 + debounceDelay)
      [((0 : Nat), (1 : Nat)), (1000, 2), (2000, 3)] ∧
    debRun [((0 : Nat), (1 : Nat)), (1000, 2), (2000, 3)] = [(3500, 3)] :=
  ⟨List.Chain.cons (by decide) (List.Chain.cons (by decide) List.Chain.nil),
   C7_debounce_coalescing (0, 1) [(1000, 2), (2000, 3)]
     (List.Chain.cons (by decide) (List.Chain.cons (by decide) List.Chain.nil))⟩

/-- C8: neither the improve route nor the generate route modifies the
store on any input — in particular no successful call does — so a
document's content can only change through a separate explicit update. -/
theorem C8_improve_generate_no_persistence (body : AiBody) (store : List PageDoc)
    (ai : AIOutcome) :
    (improveRoute body store ai).store = store ∧
    (generateRoute body store ai).store = store := by
  constructor
  · unfold improveRoute
    dsimp only
    split
    · rfl
    · cases ai with
      | ok c =>
        dsimp only
        split <;> rfl
      | rateLimit => rfl
      | otherError => rfl
  · unfold generateRoute
    dsimp only
    split
    · rfl
    · cases ai with
      | ok c =>
        dsimp only
        split <;> rfl
      | rateLimit => rfl
      | otherError => rfl

/-- C9 (code bug): archiving a favorited page clears the favorite flag and
un-archiving does not restore it, as claimed; but the favorite-toggle
route checks nothing about the archived flag (its own comment says "can't
be trash + favorite"), so toggling favorite on an archived page yields a
document that is archived and favorite simultaneously, violating the
claimed invariant. -/
theorem C9_favorite_toggle_breaks_exclusion :
    ((toggleArchiveRoute "u" "p1" [favPage]).store.map (fun p => (p.isArchived, p.isFavorite)) =
      [(true, false)]) ∧
    ((toggleArchiveRoute "u" "p1" (toggleArchiveRoute "u" "p1" [favPage]).store).store.map
        (fun p => (p.isArchived, p.isFavorite)) = [(false, false)]) ∧
    ((toggleFavoriteRoute "u" "p1" (toggleArchiveRoute "u" "p1" [favPage]).store).store.map
        (fun p => (p.isArchived, p.isFavorite)) = [(true, true)]) := by
  exact ⟨rfl, rfl, rfl⟩

/-- C10: when the improve request's selection field is absent, not a
string, or the empty string (all falsy under `selection || content`), the
full content is the text that is length-validated and sent to the model;
when the selection is any non-empty string — even one consisting only of
whitespace — the selection is used instead.  The route's provider call is
gated exactly by the 5-character trim check on that target text, and the
user message sent to the provider embeds exactly that target text. -/
theorem C10_improve_selection_precedence :
    (∀ c : String, improveTarget c none = c ∧ improveTarget c (some "") = c) ∧
    (∀ (c s : String), s ≠ "" → improveTarget c (some s) = s) ∧
    (∀ (body : AiBody) (store : List PageDoc) (ai : AIOutcome),
      ((improveRoute body store ai).providerCalls = 0 ↔
        (jsTrim (improveTarget (body.content.getD "") body.selection)).length < 5) ∧
      (∀ sent : String, (improveRoute body store ai).sentUserPrompt = some sent →
        sent = "Please improve this text:\n\n" ++
          improveTarget (body.content.getD "") body.selection)) := by
  refine ⟨?_, ?_, ?_⟩
  · intro c
    exact ⟨rfl, rfl⟩
  · intro c s hs
    show (if s = "" then c else s) = s
    rw [if_neg hs]
  · intro body store ai
    constructor
    · unfold improveRoute
      dsimp only
      split
      · next h => simp [h]
      · next h =>
        cases ai with
        | ok c =>
          dsimp only
          split <;> simp [h]
        | rateLimit => simp [h]
        | otherError => simp [h]
    · unfold improveRoute
      dsimp only
      split
      · intro sent hsent
        simp at hsent
      · cases ai with
        | ok c =>
          dsimp only
          intro sent hsent
          split at hsent <;>
          · simp only [Option.some.injEq] at hsent
            rw [← hsent]
            rfl
        | rateLimit =>
          intro sent hsent
          simp only [Option.some.injEq] at hsent
          rw [← hsent]
          rfl
        | otherError =>
          intro sent hsent
          simp only [Option.some.injEq] at hsent
          rw [← hsent]
          rfl

/-- C10 witness: with a whitespace-only selection `"   "` and a long
content, the selection is the target — its trim is empty, so the request
is rejected without any provider call even though the content is long. -/
theorem C10_improve_selection_precedence_witness :
    (("   " : String) ≠ "" ∧ improveTarget "This content is long enough" (some "   ") = "   ") ∧
    (improveRoute ⟨none, some "This content is long enough", none, some "   ", none⟩ []
        (.ok (some "x"))).providerCalls = 0 :=
  ⟨⟨by decide, C10_improve_selection_precedence.2.1 "This content is long enough" "   " (by decide)⟩,
   ((C10_improve_selection_precedence.2.2
      ⟨none, some "This content is long enough", none, some "   ", none⟩ [] (.ok (some "x"))).1).mpr
     (by decide)⟩

/-- C4: the structured tags strategy locates the first bracketed substring
(first `[` to the first `]` after it), parses it as JSON, keeps only
string elements — each kept tag is a non-empty string and the kept list
is an in-order subsequence of the array's string elements — and truncates
to at most five; on the raw output
`Here are tags: ["react", "hooks", "nextjs"]` it yields exactly
`["react", "hooks", "nextjs"]`. -/
theorem C4_structured_tags :
    structuredTags "Here are tags: [\"react\", \"hooks\", \"nextjs\"]" =
      ["react", "hooks", "nextjs"] ∧
    (∀ raw : String, (structuredTags raw).length ≤ 5 ∧
      (∀ t ∈ structuredTags raw, t ≠ "") ∧
      (structuredTags raw).Sublist (arrayStringElems raw)) := by
  constructor
  · decide
  · intro raw
    refine ⟨List.length_take_le 5 _, ?_, ?_⟩
    · intro t ht he
      have h1 := List.of_mem_filter (List.mem_of_mem_take ht)
      rw [he] at h1
      exact absurd h1 (by decide)
    · exact List.Sublist.trans (List.take_sublist 5 _) (List.filter_sublist _)

/-- C4 witness: "react" is among the structured tags of the example output
and is non-empty. -/
theorem C4_structured_tags_witness :
    ("react" : String) ∈ structuredTags "Here are tags: [\"react\", \"hooks\", \"nextjs\"]" ∧
    ("react" : String) ≠ "" :=
  ⟨by decide,
   (C4_structured_tags.2 "Here are tags: [\"react\", \"hooks\", \"nextjs\"]").2.1 "react" (by decide)⟩

/-- C5: the heuristic fallback — strip code fences, replace list-marker
runs, delete quotes and brackets, split on comma/newline runs, trim and
lowercase each candidate, keep those of length strictly between 1 and 30,
truncate to five.  Every output candidate is trimmed, lowercase and of
length 2 to 29, at most five are produced, and the example
`1. React\n2. Hooks\n3. Next.js` yields exactly the three candidates
`["react", "hooks", "next js"]` (the interior period of `Next.js` falls in
the list-marker class and becomes a space). -/
theorem C5_heuristic_tags :
    heuristicTags "1. React\n2. Hooks\n3. Next.js" = ["react", "hooks", "next js"] ∧
    (∀ raw : String, (heuristicTags raw).length ≤ 5 ∧
      (∀ t ∈ heuristicTags raw,
        1 < t.length ∧ t.length < 30 ∧ jsTrim t = t ∧ jsToLower t = t)) := by
  constructor
  · decide
  · intro raw
    refine ⟨List.length_take_le 5 _, ?_⟩
    intro t ht
    have hg := List.of_mem_filter (List.mem_of_mem_take ht)
    simp only [Bool.and_eq_true, decide_eq_true_eq] at hg
    have hm : t ∈ (splitSeps (removeQuoteBrackets (replaceMarkers (stripFences raw.data)))).map
        (fun p => jsToLower (jsTrim ⟨p⟩)) :=
      List.mem_of_mem_filter (List.mem_of_mem_take ht)
    rcases List.mem_map.1 hm with ⟨p, _, hp⟩
    refine ⟨hg.1, hg.2, ?_, ?_⟩
    · rw [← hp]
      exact jsTrim_of_lower_trim ⟨p⟩
    · rw [← hp]
      exact jsToLower_of_lower_trim ⟨p⟩

/-- C5 witness: "react" is among the heuristic tags of the example output;
it is trimmed, lowercase and of admissible length. -/
theorem C5_heuristic_tags_witness :
    ("react" : String) ∈ heuristicTags "1. React\n2. Hooks\n3. Next.js" ∧
    1 < ("react" : String).length ∧ jsTrim "react" = "react" :=
  ⟨by decide,
   ((C5_heuristic_tags.2 "1. React\n2. Hooks\n3. Next.js").2 "react" (by decide)).1,
   ((C5_heuristic_tags.2 "1. React\n2. Hooks\n3. Next.js").2 "react" (by decide)).2.2.1⟩

end NotesApp
